import Mathlib

/-!
Verification of the chunked command dispatch and response correlation engine
of `DeviceModelService` (`executeSetVariablesAfterBoot`,
`getItemsPerMessageSetVariablesByStationId`) and of the provisioning route
layer (`ProvisioningModuleApi.setVariables` / `getVariables`).

The TypeScript source is shallowly embedded:
* JavaScript `Number(string)` is modelled by `jsNumber`, restricted to
  optionally signed decimal integer literals (with surrounding whitespace,
  and the empty string converting to 0); every other string maps to `nan`.
  All theorems below only ever apply it to such strings.
* `Array.prototype.slice(start)` and `slice(0, end)` are modelled by
  `jsSliceStart` and `jsSliceZero`, including the ECMAScript clamping rules
  and the NaN-converts-to-0 rule.
* The asynchronous collaborators are modelled as oracles indexed by the
  iteration counter: `resp k` is what the `cacheCallback` returns for the
  correlation id minted at loop iteration `k`, and `conf k` is the message
  confirmation returned by `sendCall` at iteration `k`.  Correlation ids
  themselves are fresh uuids used only as lookup keys, so the iteration
  index is a faithful stand-in.
* The `while` loops are given a `fuel` parameter; running out of fuel yields
  a distinguished `outOfFuel` outcome, so "the function never returns" is
  expressed as "for every fuel bound the run is still unfinished".
* Each run records a `Trace`: the list of `data` arguments passed to the
  send callback (one entry per dispatch, in order), the number of
  `cacheCallback` invocations (`reads`), and the number of `JSON.parse`
  invocations (`parses`).
-/

/-- A JavaScript number as far as this code observes it: either NaN or an
integer value. -/
inductive JsNum where
  | nan : JsNum
  | int : Int → JsNum
deriving DecidableEq, Repr

/-- ECMAScript whitespace as far as these theorems need it: space, tab, line
feed, vertical tab, form feed, carriage return. -/
def isJsSpace (c : Char) : Bool :=
  c.toNat = 32 || c.toNat = 9 || c.toNat = 10 || c.toNat = 11 ||
    c.toNat = 12 || c.toNat = 13

/-- Strip leading and trailing whitespace from a character list. -/
def trimChars (cs : List Char) : List Char :=
  ((cs.dropWhile isJsSpace).reverse.dropWhile isJsSpace).reverse

/-- Whether the character is a decimal digit. -/
def isDigitChar (c : Char) : Bool :=
  48 ≤ c.toNat && c.toNat ≤ 57

/-- The value of a non-empty all-digit character list, `none` otherwise. -/
def digitsVal? (cs : List Char) : Option Nat :=
  if cs.isEmpty then none
  else if cs.all isDigitChar then
    some (cs.foldl (fun acc c => acc * 10 + (c.toNat - 48)) 0)
  else none

/-- Model of JavaScript `Number(s)` restricted to optionally signed decimal
integer literals: surrounding whitespace is trimmed, the empty string
converts to `0`, `"+d…d"`/`"-d…d"`/`"d…d"` convert to the denoted integer,
and every other string (no theorem below ever supplies a fractional,
hexadecimal or exponent literal) converts to NaN. -/
def jsNumber (s : String) : JsNum :=
  match trimChars s.data with
  | [] => .int 0
  | '-' :: rest =>
    match digitsVal? rest with
    | some n => .int (-(n : Int))
    | none => .nan
  | '+' :: rest =>
    match digitsVal? rest with
    | some n => .int (n : Int)
    | none => .nan
  | cs =>
    match digitsVal? cs with
    | some n => .int (n : Int)
    | none => .nan

/-- Model of `l.slice(start)`: the start index is converted with
ToIntegerOrInfinity (NaN becomes 0), a negative start counts from the end
clamped at 0, and the result is the suffix from that position. -/
def jsSliceStart {α : Type} (n : JsNum) (l : List α) : List α :=
  match n with
  | .nan => l
  | .int i => if 0 ≤ i then l.drop i.toNat else l.drop (l.length - (-i).toNat)

/-- Model of `l.slice(0, e)`: the end index is converted with
ToIntegerOrInfinity (NaN becomes 0), a negative end counts from the end
clamped at 0, and the result is the prefix up to that position. -/
def jsSliceZero {α : Type} (n : JsNum) (l : List α) : List α :=
  match n with
  | .nan => []
  | .int i => if 0 ≤ i then l.take i.toNat else l.take (l.length - (-i).toNat)

/-- `SetVariableStatusEnumType` of OCPP 2.0.1, as used by the engine: only
`Rejected` and `RebootRequired` are ever distinguished. -/
inductive SetVariableStatus where
  | Accepted
  | Rejected
  | RebootRequired
  | NotSupportedAttributeType
  | UnknownComponent
  | UnknownVariable
deriving DecidableEq, Repr

/-- What `cacheCallback(correlationId)` can resolve to, classified by how the
code observes it: `missing` is a `null` (no entry), `emptyStr` is a present
empty string (falsy in JavaScript, hence taken through the same throwing
branch as `null`), and `payload rs` is a present non-empty JSON string whose
decoded `setVariableResult` carries the statuses `rs`. -/
inductive CachedResponse where
  | missing
  | emptyStr
  | payload : List SetVariableStatus → CachedResponse
deriving DecidableEq, Repr

/-- Whether the cached entry is a truthy, decodable payload. -/
def CachedResponse.isPayload : CachedResponse → Bool
  | .payload _ => true
  | _ => false

/-- The one field of a `VariableAttribute` record that the limit lookup
reads. -/
structure VariableAttribute where
  value : String
deriving DecidableEq, Repr

/-- `getItemsPerMessageSetVariablesByStationId`: the repository query result
is `attrs`; zero matches yield `null` (here `none`), otherwise the first
record's textual value is converted with `Number` and returned. -/
def getItemsPerMessageSetVariables (attrs : List VariableAttribute) : Option JsNum :=
  match attrs with
  | [] => none
  | a :: _ => some (jsNumber a.value)

/-- One step of the `forEach` body folding an item-level result into the
`(rejectedSetVariable, rebootSetVariable)` flags. -/
def foldResult (flags : Bool × Bool) (r : SetVariableStatus) : Bool × Bool :=
  if r = .Rejected then (true, flags.2)
  else if r = .RebootRequired then (flags.1, true)
  else flags

/-- The whole `setVariablesResponse.setVariableResult.forEach(...)` fold. -/
def foldResults (rs : List SetVariableStatus) (flags : Bool × Bool) : Bool × Bool :=
  rs.foldl foldResult flags

/-- Observable events of one run of the chunk loop: the `data` argument
passed to `sendSetVariableRequest` at each dispatch (in order), the number
of `cacheCallback` invocations, and the number of `JSON.parse`
invocations (responses actually inspected). -/
structure Trace (α : Type) where
  sends : List (List α)
  reads : Nat
  parses : Nat
deriving DecidableEq, Repr

/-- How a run of `executeSetVariablesAfterBoot` ends: a normal return with
the two flags, the `SetVariables response not found` throw, or still
inside the loop when the fuel bound is exhausted. -/
inductive Outcome where
  | ok : Bool → Bool → Outcome
  | err
  | outOfFuel
deriving DecidableEq, Repr

/-- The `while (setVariableData.length > 0)` loop of
`executeSetVariablesAfterBoot`.  Per iteration: a fresh correlation id is
minted (abstracted to the counter `k`), `sendSetVariableRequest` receives
the whole remaining list together with the limit, the remaining list is
replaced by `setVariableData.slice(itemsPerMessageSetVariables)`, and
`cacheCallback` is awaited.  A falsy result (absent entry or present empty
string) throws.  Otherwise, if both flags are already true the response is
left unparsed (`continue`); else it is parsed and its statuses folded. -/
def chunkLoop {α : Type} (resp : Nat → CachedResponse) (L : JsNum) :
    Nat → Nat → List α → Bool → Bool → Trace α × Outcome
  | fuel, k, data, rej, reb =>
    if 0 < data.length then
      match fuel with
      | 0 => (⟨[], 0, 0⟩, .outOfFuel)
      | fuel + 1 =>
        let rest := jsSliceStart L data
        match resp k with
        | .payload results =>
          if rej && reb then
            let r := chunkLoop resp L fuel (k + 1) rest rej reb
            (⟨data :: r.1.sends, r.1.reads + 1, r.1.parses⟩, r.2)
          else
            let flags := foldResults results (rej, reb)
            let r := chunkLoop resp L fuel (k + 1) rest flags.1 flags.2
            (⟨data :: r.1.sends, r.1.reads + 1, r.1.parses + 1⟩, r.2)
        | _ => (⟨[data], 1, 0⟩, .err)
    else (⟨[], 0, 0⟩, .ok rej reb)

/-- `executeSetVariablesAfterBoot`: reads the configured set-variable items,
resolves the per-message limit (`?? setVariableData.length` when the lookup
returned `null`), and runs the chunk loop with both flags initially
false. -/
def executeSetVariablesAfterBoot {α : Type} (fuel : Nat) (items : List α)
    (attrs : List VariableAttribute) (resp : Nat → CachedResponse) :
    Trace α × Outcome :=
  let itemsPerMessageSetVariables :=
    (getItemsPerMessageSetVariables attrs).getD (.int items.length)
  chunkLoop resp itemsPerMessageSetVariables fuel 0 items false false

/-- `IMessageConfirmation` as observed by the route layer: a success flag and
an optional payload (here, the list of items whose confirmation is
missing). -/
structure IMessageConfirmation (α : Type) where
  success : Bool
  payload : Option (List α)
deriving DecidableEq, Repr

/-- How a route endpoint invocation ends: a returned confirmation, the
`Violation of Standard Component Structure` throw, or still inside the
loop when the fuel bound is exhausted. -/
inductive ApiOutcome (α : Type) where
  | ok : IMessageConfirmation α → ApiOutcome α
  | thrown
  | outOfFuel
deriving DecidableEq, Repr

/-- The `while (setVariableData.length > 0)` loop of the route-layer
`setVariables` endpoint.  Per iteration: the subset
`setVariableData.slice(0, itemsPerMessageSetVariables)` is sent, and on a
falsy confirmation payload the final confirmation is downgraded and the
subset appended to its payload.  The loop body never reassigns
`setVariableData`, exactly as in the source.  Returns the dispatched
subsets in order, together with the outcome. -/
def setVariablesLoop {α : Type} (conf : Nat → IMessageConfirmation α) (L : JsNum) :
    Nat → Nat → List α → IMessageConfirmation α → List (List α) × ApiOutcome α
  | fuel, k, data, final =>
    if 0 < data.length then
      match fuel with
      | 0 => ([], .outOfFuel)
      | fuel + 1 =>
        let subset := jsSliceZero L data
        let mc := conf k
        let final' :=
          if mc.payload.isSome then final
          else
            { success := false
              payload := some (match final.payload with
                | some p => p ++ subset
                | none => subset) }
        let r := setVariablesLoop conf L fuel (k + 1) data final'
        (subset :: r.1, r.2)
    else ([], .ok final)

/-- The route-layer `setVariables` endpoint: exactly one matching
`ItemsPerMessage`/`SetVariables` attribute starts the chunking loop with its
`Number`-converted value; zero matches send everything as a single call;
two or more matches throw. -/
def apiSetVariables {α : Type} (fuel : Nat) (attrs : List VariableAttribute)
    (data : List α) (conf : Nat → IMessageConfirmation α) :
    List (List α) × ApiOutcome α :=
  match attrs with
  | [a] => setVariablesLoop conf (jsNumber a.value) fuel 0 data ⟨true, none⟩
  | [] => ([data], .ok (conf 0))
  | _ => ([], .thrown)

/-- The `while (getVariableData.length > 0)` loop of the route-layer
`getVariables` endpoint, identical in structure to `setVariablesLoop`. -/
def getVariablesLoop {α : Type} (conf : Nat → IMessageConfirmation α) (L : JsNum) :
    Nat → Nat → List α → IMessageConfirmation α → List (List α) × ApiOutcome α
  | fuel, k, data, final =>
    if 0 < data.length then
      match fuel with
      | 0 => ([], .outOfFuel)
      | fuel + 1 =>
        let subset := jsSliceZero L data
        let mc := conf k
        let final' :=
          if mc.payload.isSome then final
          else
            { success := false
              payload := some (match final.payload with
                | some p => p ++ subset
                | none => subset) }
        let r := getVariablesLoop conf L fuel (k + 1) data final'
        (subset :: r.1, r.2)
    else ([], .ok final)

/-- The route-layer `getVariables` endpoint, identical in structure to
`apiSetVariables`. -/
def apiGetVariables {α : Type} (fuel : Nat) (attrs : List VariableAttribute)
    (data : List α) (conf : Nat → IMessageConfirmation α) :
    List (List α) × ApiOutcome α :=
  match attrs with
  | [a] => getVariablesLoop conf (jsNumber a.value) fuel 0 data ⟨true, none⟩
  | [] => ([data], .ok (conf 0))
  | _ => ([], .thrown)

/-- Whether the cached response for iteration `k` carries status `s` among
its item-level results. -/
def respHas (c : CachedResponse) (s : SetVariableStatus) : Bool :=
  match c with
  | .payload rs => rs.any (fun r => r = s)
  | _ => false

/-- Whether any of the responses for iterations `k, k+1, …, k+m-1` carries
status `s`. -/
def anyInRange (resp : Nat → CachedResponse) (s : SetVariableStatus) :
    Nat → Nat → Bool
  | _, 0 => false
  | k, m + 1 => respHas (resp k) s || anyInRange resp s (k + 1) m

/-- Response oracle of the C2 scenario: chunk 2 (index 1) reports one
`Rejected`, chunk 3 (index 2) reports one `RebootRequired`, all other
chunks report only `Accepted`. -/
def c2ScenarioResp : Nat → CachedResponse
  | 1 => .payload [.Accepted, .Rejected]
  | 2 => .payload [.RebootRequired]
  | _ => .payload [.Accepted]

/-- Response oracle refuting C3: the first chunk's response sets both flags
at once, so the second chunk's response arrives with both flags already
true. -/
def c3BothEarlyResp : Nat → CachedResponse
  | 0 => .payload [.Rejected, .RebootRequired]
  | _ => .payload [.Accepted]

/-- Response oracle for the C7 witness: the second chunk's response never
arrives. -/
def c7MissingResp : Nat → CachedResponse
  | 1 => .missing
  | _ => .payload []

lemma chunkLoop_nil {α : Type} (resp : Nat → CachedResponse) (L : JsNum)
    (fuel k : Nat) (rej reb : Bool) :
    chunkLoop (α := α) resp L fuel k [] rej reb = (⟨[], 0, 0⟩, .ok rej reb) := by
  rw [chunkLoop.eq_def]
  simp

lemma chunkLoop_fuel_zero {α : Type} (resp : Nat → CachedResponse) (L : JsNum)
    (k : Nat) (data : List α) (rej reb : Bool) (h : 0 < data.length) :
    chunkLoop resp L 0 k data rej reb = (⟨[], 0, 0⟩, .outOfFuel) := by
  rw [chunkLoop.eq_def]
  simp [h]

lemma chunkLoop_succ_payload {α : Type} (resp : Nat → CachedResponse) (L : JsNum)
    (fuel k : Nat) (data : List α) (rej reb : Bool) (results : List SetVariableStatus)
    (h : 0 < data.length) (hr : resp k = .payload results) :
    chunkLoop resp L (fuel + 1) k data rej reb =
      if rej && reb then
        (⟨data :: (chunkLoop resp L fuel (k + 1) (jsSliceStart L data) rej reb).1.sends,
          (chunkLoop resp L fuel (k + 1) (jsSliceStart L data) rej reb).1.reads + 1,
          (chunkLoop resp L fuel (k + 1) (jsSliceStart L data) rej reb).1.parses⟩,
         (chunkLoop resp L fuel (k + 1) (jsSliceStart L data) rej reb).2)
      else
        (⟨data :: (chunkLoop resp L fuel (k + 1) (jsSliceStart L data)
            (foldResults results (rej, reb)).1 (foldResults results (rej, reb)).2).1.sends,
          (chunkLoop resp L fuel (k + 1) (jsSliceStart L data)
            (foldResults results (rej, reb)).1 (foldResults results (rej, reb)).2).1.reads + 1,
          (chunkLoop resp L fuel (k + 1) (jsSliceStart L data)
            (foldResults results (rej, reb)).1 (foldResults results (rej, reb)).2).1.parses + 1⟩,
         (chunkLoop resp L fuel (k + 1) (jsSliceStart L data)
            (foldResults results (rej, reb)).1 (foldResults results (rej, reb)).2).2) := by
  rw [chunkLoop.eq_def]
  simp [h, hr]

lemma chunkLoop_succ_bad {α : Type} (resp : Nat → CachedResponse) (L : JsNum)
    (fuel k : Nat) (data : List α) (rej reb : Bool)
    (h : 0 < data.length) (hr : (resp k).isPayload = false) :
    chunkLoop resp L (fuel + 1) k data rej reb = (⟨[data], 1, 0⟩, .err) := by
  rw [chunkLoop.eq_def]
  cases hc : resp k with
  | payload rs => rw [hc] at hr; simp [CachedResponse.isPayload] at hr
  | missing => simp [h, hc]
  | emptyStr => simp [h, hc]

lemma foldResult_fst (flags : Bool × Bool) (r : SetVariableStatus) :
    (foldResult flags r).1 = (flags.1 || decide (r = .Rejected)) := by
  cases r <;> simp [foldResult]

lemma foldResult_snd (flags : Bool × Bool) (r : SetVariableStatus) :
    (foldResult flags r).2 = (flags.2 || decide (r = .RebootRequired)) := by
  cases r <;> simp [foldResult]

lemma foldResults_fst (rs : List SetVariableStatus) (flags : Bool × Bool) :
    (foldResults rs flags).1 = (flags.1 || rs.any (fun r => r = .Rejected)) := by
  induction rs generalizing flags with
  | nil => simp [foldResults]
  | cons r rest ih =>
    have hstep : foldResults (r :: rest) flags = foldResults rest (foldResult flags r) := rfl
    rw [hstep, ih, foldResult_fst]
    simp [Bool.or_assoc]

lemma foldResults_snd (rs : List SetVariableStatus) (flags : Bool × Bool) :
    (foldResults rs flags).2 = (flags.2 || rs.any (fun r => r = .RebootRequired)) := by
  induction rs generalizing flags with
  | nil => simp [foldResults]
  | cons r rest ih =>
    have hstep : foldResults (r :: rest) flags = foldResults rest (foldResult flags r) := rfl
    rw [hstep, ih, foldResult_snd]
    simp [Bool.or_assoc]

lemma anyInRange_succ (resp : Nat → CachedResponse) (s : SetVariableStatus) (k m : Nat) :
    anyInRange resp s k (m + 1) = (respHas (resp k) s || anyInRange resp s (k + 1) m) := rfl

lemma chunkLoop_ok {α : Type} (resp : Nat → CachedResponse) (L : JsNum) :
    ∀ (fuel k : Nat) (data : List α) (rej reb : Bool) (t : Trace α) (r b : Bool),
      chunkLoop resp L fuel k data rej reb = (t, .ok r b) →
      t.reads = t.sends.length ∧ t.parses ≤ t.reads ∧
      (t.parses < t.reads → r = true ∧ b = true) ∧
      r = (rej || anyInRange resp .Rejected k t.sends.length) ∧
      b = (reb || anyInRange resp .RebootRequired k t.sends.length) := by
  intro fuel
  induction fuel with
  | zero =>
    intro k data rej reb t r b h
    cases data with
    | nil =>
      rw [chunkLoop_nil] at h
      rw [Prod.mk.injEq] at h
      obtain ⟨ht, ho⟩ := h
      cases ho
      subst ht
      simp [anyInRange]
    | cons x xs =>
      rw [chunkLoop_fuel_zero resp L _ _ _ _ (by simp)] at h
      rw [Prod.mk.injEq] at h
      exact absurd h.2 (by simp)
  | succ fuel ih =>
    intro k data rej reb t r b h
    cases data with
    | nil =>
      rw [chunkLoop_nil] at h
      rw [Prod.mk.injEq] at h
      obtain ⟨ht, ho⟩ := h
      cases ho
      subst ht
      simp [anyInRange]
    | cons x xs =>
      have hlen : 0 < (x :: xs).length := by simp
      cases hc : resp k with
      | missing =>
        rw [chunkLoop_succ_bad resp L fuel k _ rej reb hlen (by rw [hc]; rfl)] at h
        rw [Prod.mk.injEq] at h
        exact absurd h.2 (by simp)
      | emptyStr =>
        rw [chunkLoop_succ_bad resp L fuel k _ rej reb hlen (by rw [hc]; rfl)] at h
        rw [Prod.mk.injEq] at h
        exact absurd h.2 (by simp)
      | payload results =>
        rw [chunkLoop_succ_payload resp L fuel k _ rej reb results hlen hc] at h
        by_cases hrb : (rej && reb) = true
        · rw [if_pos hrb] at h
          rw [Prod.mk.injEq] at h
          obtain ⟨ht, ho⟩ := h
          have h2 : chunkLoop resp L fuel (k + 1) (jsSliceStart L (x :: xs)) rej reb =
              ((chunkLoop resp L fuel (k + 1) (jsSliceStart L (x :: xs)) rej reb).1, .ok r b) := by
            rw [← ho]
          obtain ⟨ihreads, ihple, _, ihr, ihb⟩ := ih _ _ rej reb _ r b h2
          obtain ⟨hrej, hreb⟩ := (Bool.and_eq_true _ _).mp hrb
          subst ht
          refine ⟨by simp [ihreads], by simp; omega, ?_, ?_, ?_⟩
          · intro _
            subst hrej hreb
            constructor
            · rw [ihr]; simp
            · rw [ihb]; simp
          · subst hrej; rw [ihr]; simp
          · subst hreb; rw [ihb]; simp
        · rw [if_neg hrb] at h
          rw [Prod.mk.injEq] at h
          obtain ⟨ht, ho⟩ := h
          have h2 : chunkLoop resp L fuel (k + 1) (jsSliceStart L (x :: xs))
              (foldResults results (rej, reb)).1 (foldResults results (rej, reb)).2 =
              ((chunkLoop resp L fuel (k + 1) (jsSliceStart L (x :: xs))
                (foldResults results (rej, reb)).1 (foldResults results (rej, reb)).2).1,
               .ok r b) := by
            rw [← ho]
          obtain ⟨ihreads, ihple, ihplt, ihr, ihb⟩ := ih _ _ _ _ _ r b h2
          subst ht
          refine ⟨by simp [ihreads], by simp; omega, ?_, ?_, ?_⟩
          · intro hlt
            simp at hlt
            exact ihplt (by omega)
          · rw [ihr, foldResults_fst]
            simp only [List.length_cons, anyInRange_succ, hc, respHas]
            simp [Bool.or_assoc]
          · rw [ihb, foldResults_snd]
            simp only [List.length_cons, anyInRange_succ, hc, respHas]
            simp [Bool.or_assoc]

lemma ceil_div_step (l n : Nat) (hl : 1 ≤ l) (hn : 1 ≤ n) :
    (n + l - 1) / l = ((n - l) + l - 1) / l + 1 := by
  have h1 : n + l - 1 = (n - 1) + l := by omega
  rw [h1, Nat.add_div_right _ (by omega)]
  rcases le_or_lt n l with h | h
  · have h0 : n - l = 0 := by omega
    rw [h0, Nat.div_eq_of_lt (by omega : n - 1 < l)]
    rw [Nat.div_eq_of_lt (by omega : 0 + l - 1 < l)]
  · have h2 : (n - l) + l - 1 = (n - l - 1) + l := by omega
    rw [h2, Nat.add_div_right _ (by omega)]
    have h3 : n - 1 = (n - l - 1) + l := by omega
    rw [h3, Nat.add_div_right _ (by omega)]

lemma lt_ceil_div (l n j : Nat) (hl : 1 ≤ l) :
    j < (n + l - 1) / l ↔ j * l < n := by
  rcases Nat.eq_zero_or_pos n with h0 | h0
  · subst h0
    rw [Nat.div_eq_of_lt (by omega : 0 + l - 1 < l)]
    omega
  · constructor
    · intro h
      have h1 : j + 1 ≤ (n + l - 1) / l := h
      have h2 : (j + 1) * l ≤ n + l - 1 := (Nat.le_div_iff_mul_le (by omega)).mp h1
      have h3 : (j + 1) * l = j * l + l := by ring
      omega
    · intro h
      have h2 : (j + 1) * l ≤ n + l - 1 := by
        have h3 : (j + 1) * l = j * l + l := by ring
        omega
      exact (Nat.le_div_iff_mul_le (by omega)).mpr h2

lemma jsSliceStart_coe {α : Type} (l : Nat) (data : List α) :
    jsSliceStart (.int (l : Int)) data = data.drop l := by
  simp [jsSliceStart]

lemma chunkLoop_payload_run {α : Type} (resp : Nat → CachedResponse) (l : Nat)
    (hl : 1 ≤ l) (hresp : ∀ i, (resp i).isPayload = true) :
    ∀ (fuel k : Nat) (data : List α) (rej reb : Bool), data.length ≤ fuel →
      (chunkLoop resp (.int (l : Int)) fuel k data rej reb).1.sends =
        (List.range ((data.length + l - 1) / l)).map (fun i => data.drop (i * l)) ∧
      ∃ r b, (chunkLoop resp (.int (l : Int)) fuel k data rej reb).2 = .ok r b := by
  intro fuel
  induction fuel with
  | zero =>
    intro k data rej reb hd
    have hdata : data = [] := List.length_eq_zero.mp (by omega)
    subst hdata
    rw [chunkLoop_nil]
    refine ⟨?_, rej, reb, rfl⟩
    have hz : ((List.nil (α := α)).length + l - 1) / l = 0 := by
      simp only [List.length_nil]
      exact Nat.div_eq_of_lt (by omega)
    rw [hz]
    simp
  | succ fuel ih =>
    intro k data rej reb hd
    cases data with
    | nil =>
      rw [chunkLoop_nil]
      refine ⟨?_, rej, reb, rfl⟩
      have hz : ((List.nil (α := α)).length + l - 1) / l = 0 := by
        simp only [List.length_nil]
        exact Nat.div_eq_of_lt (by omega)
      rw [hz]
      simp
    | cons x xs =>
      have hlen : 0 < (x :: xs).length := by simp
      cases hc : resp k with
      | missing => exact absurd (hresp k) (by rw [hc]; simp [CachedResponse.isPayload])
      | emptyStr => exact absurd (hresp k) (by rw [hc]; simp [CachedResponse.isPayload])
      | payload results =>
        rw [chunkLoop_succ_payload resp _ fuel k _ rej reb results hlen hc,
          jsSliceStart_coe]
        have hstep : ((x :: xs).length + l - 1) / l =
            (((x :: xs).length - l) + l - 1) / l + 1 :=
          ceil_div_step l _ (by omega) (by simp)
        have hdroplen : ((x :: xs).drop l).length = (x :: xs).length - l :=
          List.length_drop l (x :: xs)
        have hfuel2 : ((x :: xs).drop l).length ≤ fuel := by
          rw [hdroplen]
          simp only [List.length_cons] at hd ⊢
          omega
        have hrange : (List.range (((x :: xs).length + l - 1) / l)).map
              (fun i => (x :: xs).drop (i * l)) =
            (x :: xs) :: (List.range ((((x :: xs).drop l).length + l - 1) / l)).map
              (fun i => ((x :: xs).drop l).drop (i * l)) := by
          rw [hdroplen, hstep, List.range_succ_eq_map]
          simp only [List.map_cons, List.map_map, Nat.zero_mul, List.drop_zero]
          congr 1
          apply List.map_congr_left
          intro i _
          simp only [Function.comp_apply, List.drop_drop]
          congr 1
          simp only [Nat.succ_eq_add_one, Nat.add_mul, Nat.one_mul]
          omega
        by_cases hrb : (rej && reb) = true
        · rw [if_pos hrb]
          obtain ⟨ihs, r, b, iho⟩ := ih (k + 1) ((x :: xs).drop l) rej reb hfuel2
          refine ⟨?_, r, b, iho⟩
          simp only [ihs, hrange]
        · rw [if_neg hrb]
          obtain ⟨ihs, r, b, iho⟩ := ih (k + 1) ((x :: xs).drop l)
            (foldResults results (rej, reb)).1 (foldResults results (rej, reb)).2 hfuel2
          refine ⟨?_, r, b, iho⟩
          simp only [ihs, hrange]

lemma range_chunks_flatten {α : Type} (l : Nat) (hl : 1 ≤ l) :
    ∀ (n : Nat) (data : List α), data.length ≤ n →
      ((List.range ((data.length + l - 1) / l)).map
        (fun i => (data.drop (i * l)).take l)).flatten = data := by
  intro n
  induction n with
  | zero =>
    intro data hd
    have hdata : data = [] := List.length_eq_zero.mp (by omega)
    subst hdata
    have hz : ((List.nil (α := α)).length + l - 1) / l = 0 := by
      simp only [List.length_nil]
      exact Nat.div_eq_of_lt (by omega)
    rw [hz]
    simp
  | succ n ih =>
    intro data hd
    cases data with
    | nil =>
      have hz : ((List.nil (α := α)).length + l - 1) / l = 0 := by
        simp only [List.length_nil]
        exact Nat.div_eq_of_lt (by omega)
      rw [hz]
      simp
    | cons x xs =>
      have hstep : ((x :: xs).length + l - 1) / l =
          (((x :: xs).length - l) + l - 1) / l + 1 :=
        ceil_div_step l _ (by omega) (by simp)
      rw [hstep, List.range_succ_eq_map]
      simp only [List.map_cons, List.map_map, Nat.zero_mul, List.drop_zero,
        List.flatten_cons]
      have hdroplen : ((x :: xs).drop l).length = (x :: xs).length - l :=
        List.length_drop l (x :: xs)
      have hfuel2 : ((x :: xs).drop l).length ≤ n := by
        rw [hdroplen]
        simp only [List.length_cons] at hd ⊢
        omega
      have hih := ih ((x :: xs).drop l) hfuel2
      rw [hdroplen] at hih
      have hmap : (List.range ((((x :: xs).length - l) + l - 1) / l)).map
            ((fun i => ((x :: xs).drop (i * l)).take l) ∘ Nat.succ) =
          (List.range ((((x :: xs).length - l) + l - 1) / l)).map
            (fun i => (((x :: xs).drop l).drop (i * l)).take l) := by
        apply List.map_congr_left
        intro i _
        simp only [Function.comp_apply, List.drop_drop]
        congr 2
        simp only [Nat.succ_eq_add_one, Nat.add_mul, Nat.one_mul]
        omega
      rw [hmap, hih]
      exact List.take_append_drop l (x :: xs)

lemma chunkLoop_first_bad {α : Type} (resp : Nat → CachedResponse) (l : Nat)
    (hl : 1 ≤ l) :
    ∀ (j fuel k : Nat) (data : List α) (rej reb : Bool),
      (∀ i, i < j → (resp (k + i)).isPayload = true) →
      (resp (k + j)).isPayload = false →
      j * l < data.length →
      data.length ≤ fuel →
      (chunkLoop resp (.int (l : Int)) fuel k data rej reb).2 = .err ∧
      (chunkLoop resp (.int (l : Int)) fuel k data rej reb).1.sends.length = j + 1 := by
  intro j
  induction j with
  | zero =>
    intro fuel k data rej reb hgood hbad hchunk hfuel
    cases data with
    | nil => simp at hchunk
    | cons x xs =>
      cases fuel with
      | zero => simp at hfuel
      | succ fuel =>
        rw [chunkLoop_succ_bad resp _ fuel k _ rej reb (by simp) (by simpa using hbad)]
        simp
  | succ j ihj =>
    intro fuel k data rej reb hgood hbad hchunk hfuel
    cases data with
    | nil => simp at hchunk
    | cons x xs =>
      cases fuel with
      | zero => simp at hfuel
      | succ fuel =>
        have h0 : (resp k).isPayload = true := by
          have := hgood 0 (by omega)
          simpa using this
        cases hc : resp k with
        | missing => rw [hc] at h0; simp [CachedResponse.isPayload] at h0
        | emptyStr => rw [hc] at h0; simp [CachedResponse.isPayload] at h0
        | payload results =>
          rw [chunkLoop_succ_payload resp _ fuel k _ rej reb results (by simp) hc,
            jsSliceStart_coe]
          have hgood2 : ∀ i, i < j → (resp (k + 1 + i)).isPayload = true := by
            intro i hi
            have := hgood (i + 1) (by omega)
            have harith : k + (i + 1) = k + 1 + i := by omega
            rwa [harith] at this
          have hbad2 : (resp (k + 1 + j)).isPayload = false := by
            have harith : k + (j + 1) = k + 1 + j := by omega
            rwa [harith] at hbad
          have hchunk2 : j * l < ((x :: xs).drop l).length := by
            rw [List.length_drop]
            have : (j + 1) * l = j * l + l := by ring
            omega
          have hfuel2 : ((x :: xs).drop l).length ≤ fuel := by
            rw [List.length_drop]
            simp only [List.length_cons] at hfuel ⊢
            omega
          by_cases hrb : (rej && reb) = true
          · rw [if_pos hrb]
            obtain ⟨iho, ihs⟩ := ihj fuel (k + 1) ((x :: xs).drop l) rej reb
              hgood2 hbad2 hchunk2 hfuel2
            exact ⟨iho, by simp [ihs]⟩
          · rw [if_neg hrb]
            obtain ⟨iho, ihs⟩ := ihj fuel (k + 1) ((x :: xs).drop l)
              (foldResults results (rej, reb)).1 (foldResults results (rej, reb)).2
              hgood2 hbad2 hchunk2 hfuel2
            exact ⟨iho, by simp [ihs]⟩

lemma jsSliceStart_id {α : Type} (L : JsNum) (hL : L = .int 0 ∨ L = .nan)
    (data : List α) : jsSliceStart L data = data := by
  rcases hL with h | h <;> subst h <;> simp [jsSliceStart]

lemma chunkLoop_stuck {α : Type} (resp : Nat → CachedResponse) (L : JsNum)
    (hL : L = .int 0 ∨ L = .nan) (hresp : ∀ i, (resp i).isPayload = true) :
    ∀ (fuel k : Nat) (data : List α) (rej reb : Bool), 0 < data.length →
      (chunkLoop resp L fuel k data rej reb).2 = .outOfFuel ∧
      (chunkLoop resp L fuel k data rej reb).1.sends.length = fuel := by
  intro fuel
  induction fuel with
  | zero =>
    intro k data rej reb hd
    rw [chunkLoop_fuel_zero resp L k data rej reb hd]
    simp
  | succ fuel ih =>
    intro k data rej reb hd
    cases hc : resp k with
    | missing => exact absurd (hresp k) (by rw [hc]; simp [CachedResponse.isPayload])
    | emptyStr => exact absurd (hresp k) (by rw [hc]; simp [CachedResponse.isPayload])
    | payload results =>
      cases data with
      | nil => simp at hd
      | cons x xs =>
        rw [chunkLoop_succ_payload resp L fuel k _ rej reb results hd hc,
          jsSliceStart_id L hL]
        by_cases hrb : (rej && reb) = true
        · rw [if_pos hrb]
          obtain ⟨iho, ihs⟩ := ih (k + 1) (x :: xs) rej reb hd
          exact ⟨iho, by simp [ihs]⟩
        · rw [if_neg hrb]
          obtain ⟨iho, ihs⟩ := ih (k + 1) (x :: xs)
            (foldResults results (rej, reb)).1 (foldResults results (rej, reb)).2 hd
          exact ⟨iho, by simp [ihs]⟩

lemma setVariablesLoop_stuck {α : Type} (conf : Nat → IMessageConfirmation α)
    (L : JsNum) :
    ∀ (fuel k : Nat) (data : List α) (final : IMessageConfirmation α),
      0 < data.length →
      setVariablesLoop conf L fuel k data final =
        (List.replicate fuel (jsSliceZero L data), .outOfFuel) := by
  intro fuel
  induction fuel with
  | zero =>
    intro k data final hd
    rw [setVariablesLoop.eq_def]
    simp [hd]
  | succ fuel ih =>
    intro k data final hd
    rw [setVariablesLoop.eq_def]
    simp only [hd, if_true, List.replicate_succ]
    rw [ih]
    · exact hd

lemma getVariablesLoop_stuck {α : Type} (conf : Nat → IMessageConfirmation α)
    (L : JsNum) :
    ∀ (fuel k : Nat) (data : List α) (final : IMessageConfirmation α),
      0 < data.length →
      getVariablesLoop conf L fuel k data final =
        (List.replicate fuel (jsSliceZero L data), .outOfFuel) := by
  intro fuel
  induction fuel with
  | zero =>
    intro k data final hd
    rw [getVariablesLoop.eq_def]
    simp [hd]
  | succ fuel ih =>
    intro k data final hd
    rw [getVariablesLoop.eq_def]
    simp only [hd, if_true, List.replicate_succ]
    rw [ih]
    · exact hd

lemma chunkLoop_ok_count {α : Type} (resp : Nat → CachedResponse) (l : Nat)
    (hl : 1 ≤ l) :
    ∀ (fuel k : Nat) (data : List α) (rej reb : Bool) (t : Trace α) (r b : Bool),
      chunkLoop resp (.int (l : Int)) fuel k data rej reb = (t, .ok r b) →
      t.sends.length = (data.length + l - 1) / l := by
  intro fuel
  induction fuel with
  | zero =>
    intro k data rej reb t r b h
    cases data with
    | nil =>
      rw [chunkLoop_nil] at h
      rw [Prod.mk.injEq] at h
      obtain ⟨ht, _⟩ := h
      subst ht
      simp only [List.length_nil, Nat.zero_add]
      rw [Nat.div_eq_of_lt (by omega : l - 1 < l)]
    | cons x xs =>
      rw [chunkLoop_fuel_zero resp _ _ _ _ _ (by simp)] at h
      rw [Prod.mk.injEq] at h
      exact absurd h.2 (by simp)
  | succ fuel ih =>
    intro k data rej reb t r b h
    cases data with
    | nil =>
      rw [chunkLoop_nil] at h
      rw [Prod.mk.injEq] at h
      obtain ⟨ht, _⟩ := h
      subst ht
      simp only [List.length_nil, Nat.zero_add]
      rw [Nat.div_eq_of_lt (by omega : l - 1 < l)]
    | cons x xs =>
      have hlen : 0 < (x :: xs).length := by simp
      cases hc : resp k with
      | missing =>
        rw [chunkLoop_succ_bad resp _ fuel k _ rej reb hlen (by rw [hc]; rfl)] at h
        rw [Prod.mk.injEq] at h
        exact absurd h.2 (by simp)
      | emptyStr =>
        rw [chunkLoop_succ_bad resp _ fuel k _ rej reb hlen (by rw [hc]; rfl)] at h
        rw [Prod.mk.injEq] at h
        exact absurd h.2 (by simp)
      | payload results =>
        rw [chunkLoop_succ_payload resp _ fuel k _ rej reb results hlen hc,
          jsSliceStart_coe] at h
        have hstep : ((x :: xs).length + l - 1) / l =
            (((x :: xs).drop l).length + l - 1) / l + 1 := by
          rw [List.length_drop]
          exact ceil_div_step l _ (by omega) (by simp)
        rw [hstep]
        by_cases hrb : (rej && reb) = true
        · rw [if_pos hrb] at h
          rw [Prod.mk.injEq] at h
          obtain ⟨ht, ho⟩ := h
          have h2 : chunkLoop resp (.int (l : Int)) fuel (k + 1) ((x :: xs).drop l)
              rej reb =
              ((chunkLoop resp (.int (l : Int)) fuel (k + 1) ((x :: xs).drop l)
                rej reb).1, .ok r b) := by rw [← ho]
          have := ih (k + 1) ((x :: xs).drop l) rej reb _ r b h2
          subst ht
          simp only [List.length_cons, List.length_map]
          simp only [List.length_drop] at this ⊢
          omega
        · rw [if_neg hrb] at h
          rw [Prod.mk.injEq] at h
          obtain ⟨ht, ho⟩ := h
          have h2 : chunkLoop resp (.int (l : Int)) fuel (k + 1) ((x :: xs).drop l)
              (foldResults results (rej, reb)).1 (foldResults results (rej, reb)).2 =
              ((chunkLoop resp (.int (l : Int)) fuel (k + 1) ((x :: xs).drop l)
                (foldResults results (rej, reb)).1
                (foldResults results (rej, reb)).2).1, .ok r b) := by rw [← ho]
          have := ih (k + 1) ((x :: xs).drop l) _ _ _ r b h2
          subst ht
          simp only [List.length_cons, List.length_map]
          simp only [List.length_drop] at this ⊢
          omega

/-- C1: with a discovered positive limit `l` and a non-empty item list, the
chunk loop of `executeSetVariablesAfterBoot` performs exactly
`⌈n / l⌉ = (n + l - 1) / l` dispatch iterations; the `i`-th dispatch carries
the remaining suffix `items.drop (i * l)` (whose consumed chunk is its first
`min(l, remaining)` items), every chunk except possibly the last has size
exactly `l`, and the in-order concatenation of the chunks is the original
list. -/
theorem c1_chunk_partition {α : Type} (items : List α) (a : VariableAttribute)
    (l : Nat) (resp : Nat → CachedResponse) (fuel : Nat)
    (hne : items ≠ []) (hl : jsNumber a.value = .int (l : Int)) (hpos : 1 ≤ l)
    (hresp : ∀ i, (resp i).isPayload = true) (hfuel : items.length ≤ fuel) :
    (executeSetVariablesAfterBoot fuel items [a] resp).1.sends.length
        = (items.length + l - 1) / l ∧
    (∀ i, i < (items.length + l - 1) / l →
      (executeSetVariablesAfterBoot fuel items [a] resp).1.sends[i]?
        = some (items.drop (i * l))) ∧
    (∀ i, i + 1 < (items.length + l - 1) / l →
      ((items.drop (i * l)).take l).length = l) ∧
    ((executeSetVariablesAfterBoot fuel items [a] resp).1.sends.map
      (fun s => s.take l)).flatten = items := by
  have hEB : executeSetVariablesAfterBoot fuel items [a] resp
      = chunkLoop resp (jsNumber a.value) fuel 0 items false false := rfl
  rw [hl] at hEB
  obtain ⟨hs, r, b, ho⟩ :=
    chunkLoop_payload_run resp l hpos hresp fuel 0 items false false hfuel
  rw [hEB, hs]
  refine ⟨by simp, ?_, ?_, ?_⟩
  · intro i hi
    rw [List.getElem?_map, List.getElem?_range hi]
    rfl
  · intro i hi
    rw [List.length_take, List.length_drop]
    have h1 : (i + 1) * l < items.length := (lt_ceil_div l items.length (i + 1) hpos).mp hi
    have h2 : (i + 1) * l = i * l + l := by ring
    omega
  · rw [List.map_map]
    have hcomp : ((fun s => List.take l s) ∘ fun i => items.drop (i * l))
        = fun i => (items.drop (i * l)).take l := rfl
    rw [hcomp]
    exact range_chunks_flatten l hpos items.length items le_rfl

/-- Witness for C1 at the concrete input `items = [0,1,2,3,4]`, limit
attribute value `"2"`, all responses present: five items with limit two make
three dispatch iterations. -/
theorem c1_chunk_partition_witness :
    (executeSetVariablesAfterBoot 5 (List.range 5) [⟨"2"⟩]
      (fun _ => CachedResponse.payload [])).1.sends.length
      = ((List.range 5).length + 2 - 1) / 2 :=
  (c1_chunk_partition (List.range 5) ⟨"2"⟩ 2 (fun _ => CachedResponse.payload []) 5
    (by decide) (by decide) (by decide) (fun i => rfl) (by decide)).1

/-- C2: whenever `executeSetVariablesAfterBoot` returns normally it has
consumed one response per dispatched chunk (`reads = sends.length`, and with
a discovered positive limit `l` the number of chunks is exactly
`⌈n / l⌉`), and the returned pair equals the OR, over all consumed chunk
responses, of their item-level `Rejected` / `RebootRequired` statuses.  In
particular, 25 items with limit 10 make 3 chunks of sizes `[10, 10, 5]`,
and a `Rejected` in chunk 2 plus a `RebootRequired` in chunk 3 give the
final outcome `(true, true)`. -/
theorem c2_aggregate_outcome {α : Type} (items : List α)
    (attrs : List VariableAttribute) (resp : Nat → CachedResponse)
    (fuel : Nat) (t : Trace α) (r b : Bool)
    (h : executeSetVariablesAfterBoot fuel items attrs resp = (t, .ok r b)) :
    t.reads = t.sends.length ∧
    r = anyInRange resp .Rejected 0 t.sends.length ∧
    b = anyInRange resp .RebootRequired 0 t.sends.length ∧
    (∀ l : Nat, 1 ≤ l →
      getItemsPerMessageSetVariables attrs = some (.int (l : Int)) →
      t.sends.length = (items.length + l - 1) / l) ∧
    ((executeSetVariablesAfterBoot 30 (List.range 25) [⟨"10"⟩]
        c2ScenarioResp).1.sends.map (fun s => (s.take 10).length))
      = [10, 10, 5] ∧
    (executeSetVariablesAfterBoot 30 (List.range 25) [⟨"10"⟩]
        c2ScenarioResp).2 = .ok true true := by
  have h' : chunkLoop resp
      ((getItemsPerMessageSetVariables attrs).getD (.int (items.length : Int)))
      fuel 0 items false false = (t, .ok r b) := h
  obtain ⟨h1, _, _, h4, h5⟩ :=
    chunkLoop_ok resp _ fuel 0 items false false t r b h'
  refine ⟨h1, by simpa using h4, by simpa using h5, ?_, by decide, by decide⟩
  intro l hl hattr
  rw [hattr] at h'
  exact chunkLoop_ok_count resp l hl fuel 0 items false false t r b h'

/-- Witness for C2 at the concrete input: one item, limit `"1"`, one
response carrying one `Rejected`. -/
theorem c2_aggregate_outcome_witness :
    (⟨[[0]], 1, 1⟩ : Trace Nat).reads = (⟨[[0]], 1, 1⟩ : Trace Nat).sends.length :=
  (c2_aggregate_outcome [0] [⟨"1"⟩] (fun _ => CachedResponse.payload [.Rejected]) 1
    ⟨[[0]], 1, 1⟩ true false (by decide)).1

/-- Counterexample to C3 as stated: in the run over items `[0, 1]` with limit
`"1"`, chunk 1's response is present (`isPayload`), yet only one of the two
retrieved responses is ever parsed (`parses = 1 < 2 = reads`): the `continue`
taken once both flags are true skips inspection, so it is not the case that
every present chunk response has its item-level statuses inspected. -/
theorem c3_skip_counterexample :
    (executeSetVariablesAfterBoot 2 [0, 1] [⟨"1"⟩] c3BothEarlyResp).1.reads = 2 ∧
    (executeSetVariablesAfterBoot 2 [0, 1] [⟨"1"⟩] c3BothEarlyResp).1.parses = 1 ∧
    (c3BothEarlyResp 1).isPayload = true ∧
    (executeSetVariablesAfterBoot 2 [0, 1] [⟨"1"⟩] c3BothEarlyResp).2
      = .ok true true := by decide

/-- C3 as amended: every dispatched chunk's response is still retrieved from
the correlation store (`reads = sends.length`, never left unread), but a
present response's item-level statuses are inspected only while at least one
flag is still false: a response is left unparsed only when both flags are
already true on its arrival, in which case the returned pair — which always
equals the OR over all consumed responses — is `(true, true)` regardless. -/
theorem c3_drain_but_skip_inspection {α : Type} (items : List α)
    (attrs : List VariableAttribute) (resp : Nat → CachedResponse)
    (fuel : Nat) (t : Trace α) (r b : Bool)
    (h : executeSetVariablesAfterBoot fuel items attrs resp = (t, .ok r b)) :
    t.reads = t.sends.length ∧
    t.parses ≤ t.reads ∧
    (t.parses < t.reads → r = true ∧ b = true) ∧
    r = anyInRange resp .Rejected 0 t.sends.length ∧
    b = anyInRange resp .RebootRequired 0 t.sends.length := by
  have h' : chunkLoop resp
      ((getItemsPerMessageSetVariables attrs).getD (.int (items.length : Int)))
      fuel 0 items false false = (t, .ok r b) := h
  obtain ⟨h1, h2, h3, h4, h5⟩ :=
    chunkLoop_ok resp _ fuel 0 items false false t r b h'
  exact ⟨h1, h2, h3, by simpa using h4, by simpa using h5⟩

/-- Witness for the amended C3 at the run of `c3_skip_counterexample`. -/
theorem c3_drain_but_skip_inspection_witness :
    (⟨[[0, 1], [1]], 2, 1⟩ : Trace Nat).parses ≤ (⟨[[0, 1], [1]], 2, 1⟩ : Trace Nat).reads :=
  (c3_drain_but_skip_inspection [0, 1] [⟨"1"⟩] c3BothEarlyResp 2
    ⟨[[0, 1], [1]], 2, 1⟩ true true (by decide)).2.1

/-- Counterexample to C4 as stated: with two matching attribute records
(values `"1"` and `"7"`), the service-layer lookup used by
`executeSetVariablesAfterBoot` does not fail — it proceeds by picking the
first record, and the whole operation runs to a normal `(false, false)`
return, chunked by the first record's limit 1. -/
theorem c4_first_pick_counterexample :
    getItemsPerMessageSetVariables [⟨"1"⟩, ⟨"7"⟩] = some (.int 1) ∧
    (executeSetVariablesAfterBoot 5 [0, 1] [⟨"1"⟩, ⟨"7"⟩]
      (fun _ => CachedResponse.payload [.Accepted])).2 = .ok false false ∧
    (executeSetVariablesAfterBoot 5 [0, 1] [⟨"1"⟩, ⟨"7"⟩]
      (fun _ => CachedResponse.payload [.Accepted])).1.sends.length = 2 := by
  decide

/-- C4 as amended: only the route-layer endpoints treat two or more matching
limit records as an error (`Violation of Standard Component Structure`
throw); the service-layer lookup used by `executeSetVariablesAfterBoot`
instead returns the first record's `Number`-converted value, as its own doc
comment states. -/
theorem c4_two_matches_semantics {α : Type} :
    (∀ (a b : VariableAttribute) (rest : List VariableAttribute),
      getItemsPerMessageSetVariables (a :: b :: rest)
        = some (jsNumber a.value)) ∧
    (∀ (fuel : Nat) (a b : VariableAttribute) (rest : List VariableAttribute)
      (data : List α) (conf : Nat → IMessageConfirmation α),
      apiSetVariables fuel (a :: b :: rest) data conf = ([], .thrown)) ∧
    (∀ (fuel : Nat) (a b : VariableAttribute) (rest : List VariableAttribute)
      (data : List α) (conf : Nat → IMessageConfirmation α),
      apiGetVariables fuel (a :: b :: rest) data conf = ([], .thrown)) :=
  ⟨fun _ _ _ => rfl, fun _ _ _ _ _ _ => rfl, fun _ _ _ _ _ _ => rfl⟩

/-- Counterexample to C5 as stated: a single matching record whose textual
value is non-positive (`"0"`, `"-3"`) or non-numeric (`"abc"`) does not make
the lookup fail — the converted value (0, -3, or NaN) is returned as the
limit, and `executeSetVariablesAfterBoot` then uses it (with value `"0"` and
a non-empty item list the loop is still running after 3 iterations instead
of having raised any configuration error). -/
theorem c5_no_validation_counterexample :
    getItemsPerMessageSetVariables [⟨"0"⟩] = some (.int 0) ∧
    getItemsPerMessageSetVariables [⟨"abc"⟩] = some .nan ∧
    getItemsPerMessageSetVariables [⟨"-3"⟩] = some (.int (-3)) ∧
    (executeSetVariablesAfterBoot 3 [7] [⟨"0"⟩]
      (fun _ => CachedResponse.payload [.Accepted])).2 = .outOfFuel := by
  decide

/-- C5 as amended: the lookup performs no validation at all — with exactly
one matching record it returns `Number(value)` whatever that is, and the
caller plugs that value in directly as the chunk limit. -/
theorem c5_unvalidated_limit {α : Type} :
    (∀ a : VariableAttribute,
      getItemsPerMessageSetVariables [a] = some (jsNumber a.value)) ∧
    (∀ (fuel : Nat) (items : List α) (a : VariableAttribute)
      (resp : Nat → CachedResponse),
      executeSetVariablesAfterBoot fuel items [a] resp
        = chunkLoop resp (jsNumber a.value) fuel 0 items false false) :=
  ⟨fun _ => rfl, fun _ _ _ _ => rfl⟩

/-- C6: the two flags are monotone, both per fold step (`foldResults` never
clears a set flag) and across the whole remaining run: starting the chunk
loop from any intermediate flag state, a flag that is true on entry is true
in the normal-return result. -/
theorem c6_monotonic_flags {α : Type} (resp : Nat → CachedResponse) (L : JsNum)
    (fuel k : Nat) (data : List α) (rej reb : Bool) (t : Trace α) (r b : Bool)
    (h : chunkLoop resp L fuel k data rej reb = (t, .ok r b)) :
    (rej = true → r = true) ∧ (reb = true → b = true) ∧
    (∀ (rs : List SetVariableStatus) (flags : Bool × Bool),
      flags.1 = true → (foldResults rs flags).1 = true) ∧
    (∀ (rs : List SetVariableStatus) (flags : Bool × Bool),
      flags.2 = true → (foldResults rs flags).2 = true) := by
  obtain ⟨_, _, _, hr, hb⟩ := chunkLoop_ok resp L fuel k data rej reb t r b h
  refine ⟨?_, ?_, ?_, ?_⟩
  · intro hrej; rw [hr, hrej]; simp
  · intro hreb; rw [hb, hreb]; simp
  · intro rs flags hf; rw [foldResults_fst, hf]; simp
  · intro rs flags hf; rw [foldResults_snd, hf]; simp

/-- Witness for C6 at a concrete run entered with `rej` already true. -/
theorem c6_monotonic_flags_witness :
    (true = true → true = true) ∧ (false = true → false = true) := by
  have h := c6_monotonic_flags (fun _ => CachedResponse.payload [])
    (JsNum.int 1) 1 0 [0] true false ⟨[[0]], 1, 1⟩ true false (by decide)
  exact ⟨h.1, h.2.1⟩

/-- C7: with a discovered positive limit `l`, if the first `j` responses are
present payloads and the response for chunk `j` is absent or present-but-empty
(while chunk `j` is planned, i.e. `j * l < n`), then the run throws
(`SetVariables response not found`): the outcome carries no flags, and
exactly `j + 1` dispatches were performed — no chunk after the failing one
is ever dispatched. -/
theorem c7_fatal_missing_response {α : Type} (items : List α)
    (a : VariableAttribute) (l j fuel : Nat) (resp : Nat → CachedResponse)
    (hl : jsNumber a.value = .int (l : Int)) (hpos : 1 ≤ l)
    (hgood : ∀ i, i < j → (resp i).isPayload = true)
    (hbad : resp j = .missing ∨ resp j = .emptyStr)
    (hplanned : j * l < items.length)
    (hfuel : items.length ≤ fuel) :
    (executeSetVariablesAfterBoot fuel items [a] resp).2 = .err ∧
    (executeSetVariablesAfterBoot fuel items [a] resp).1.sends.length = j + 1 := by
  have hEB : executeSetVariablesAfterBoot fuel items [a] resp
      = chunkLoop resp (jsNumber a.value) fuel 0 items false false := rfl
  rw [hl] at hEB
  rw [hEB]
  have hbad' : (resp (0 + j)).isPayload = false := by
    rw [Nat.zero_add]
    rcases hbad with hb | hb <;> rw [hb] <;> rfl
  exact chunkLoop_first_bad resp l hpos j fuel 0 items false false
    (fun i hi => by rw [Nat.zero_add]; exact hgood i hi) hbad' hplanned hfuel

/-- Witness for C7: five items, limit `"2"`, response for chunk 1 missing:
the run throws after exactly two dispatches. -/
theorem c7_fatal_missing_response_witness :
    (executeSetVariablesAfterBoot 5 (List.range 5) [⟨"2"⟩] c7MissingResp).2
      = .err ∧
    (executeSetVariablesAfterBoot 5 (List.range 5) [⟨"2"⟩]
      c7MissingResp).1.sends.length = 1 + 1 :=
  c7_fatal_missing_response (List.range 5) ⟨"2"⟩ 2 1 5 c7MissingResp
    (by decide) (by decide)
    (fun i hi => by
      have h0 : i = 0 := by omega
      subst h0
      rfl)
    (Or.inl rfl) (by decide) (by decide)

/-- C8: when no limit attribute is discovered, a non-empty item list is sent
in exactly one dispatch carrying all items, and an empty item list performs
no dispatch at all (the send callback and the cache callback are never
invoked) and returns `(false, false)`. -/
theorem c8_no_limit_single_chunk {α : Type} (items : List α)
    (resp : Nat → CachedResponse) (fuel : Nat)
    (hne : items ≠ []) (hfuel : 1 ≤ fuel) :
    (executeSetVariablesAfterBoot fuel items [] resp).1.sends = [items] ∧
    (∀ (fuel2 : Nat) (resp2 : Nat → CachedResponse),
      executeSetVariablesAfterBoot fuel2 ([] : List α) [] resp2
        = (⟨[], 0, 0⟩, .ok false false)) := by
  constructor
  · have hEB : executeSetVariablesAfterBoot fuel items [] resp
        = chunkLoop resp (.int (items.length : Int)) fuel 0 items false false := rfl
    rw [hEB]
    cases fuel with
    | zero => omega
    | succ fuel =>
      cases hitems : items with
      | nil => exact absurd hitems hne
      | cons x xs =>
        have hlen : 0 < (x :: xs).length := by simp
        have hdrop : jsSliceStart (.int ((x :: xs).length : Int)) (x :: xs)
            = ([] : List α) := by
          rw [jsSliceStart_coe]
          simp
        cases hc : resp 0 with
        | payload results =>
          rw [chunkLoop_succ_payload resp _ fuel 0 _ false false results hlen hc,
            hdrop, if_neg (by simp), chunkLoop_nil]
        | missing =>
          rw [chunkLoop_succ_bad resp _ fuel 0 _ false false hlen (by rw [hc]; rfl)]
        | emptyStr =>
          rw [chunkLoop_succ_bad resp _ fuel 0 _ false false hlen (by rw [hc]; rfl)]
  · intro fuel2 resp2
    have hEB : executeSetVariablesAfterBoot fuel2 ([] : List α) [] resp2
        = chunkLoop resp2 (.int ((0 : Nat) : Int)) fuel2 0 [] false false := rfl
    rw [hEB, chunkLoop_nil]

/-- Witness for C8: three items, no limit attribute. -/
theorem c8_no_limit_single_chunk_witness :
    (executeSetVariablesAfterBoot 3 [5, 6, 7] []
      (fun _ => CachedResponse.payload [])).1.sends = [[5, 6, 7]] :=
  (c8_no_limit_single_chunk [5, 6, 7] (fun _ => CachedResponse.payload []) 3
    (by decide) (by decide)).1

/-- C9: if the single discovered limit attribute converts to 0 or NaN, then
`slice` never shrinks the remaining item list, so for a non-empty item list
(with all responses present) the chunk loop never terminates: for every fuel
bound the run is still inside the loop, having performed one dispatch per
iteration. -/
theorem c9_zero_or_nan_limit_diverges {α : Type} (items : List α)
    (a : VariableAttribute) (resp : Nat → CachedResponse)
    (hne : items ≠ [])
    (hval : jsNumber a.value = .int 0 ∨ jsNumber a.value = .nan)
    (hresp : ∀ i, (resp i).isPayload = true) :
    jsSliceStart (jsNumber a.value) items = items ∧
    ∀ fuel : Nat,
      (executeSetVariablesAfterBoot fuel items [a] resp).2 = .outOfFuel ∧
      (executeSetVariablesAfterBoot fuel items [a] resp).1.sends.length = fuel := by
  have hlen : 0 < items.length := List.length_pos.mpr hne
  refine ⟨jsSliceStart_id _ hval items, fun fuel => ?_⟩
  have hEB : executeSetVariablesAfterBoot fuel items [a] resp
      = chunkLoop resp (jsNumber a.value) fuel 0 items false false := rfl
  rw [hEB]
  exact chunkLoop_stuck resp _ hval hresp fuel 0 items false false hlen

/-- Witness for C9: two items, limit attribute value `"0"`, all responses
present: after 4 units of fuel the loop has dispatched 4 times and is still
running. -/
theorem c9_zero_or_nan_limit_diverges_witness :
    (executeSetVariablesAfterBoot 4 [1, 2] [⟨"0"⟩]
      (fun _ => CachedResponse.payload [.Accepted])).2 = .outOfFuel ∧
    (executeSetVariablesAfterBoot 4 [1, 2] [⟨"0"⟩]
      (fun _ => CachedResponse.payload [.Accepted])).1.sends.length = 4 :=
  (c9_zero_or_nan_limit_diverges [1, 2] ⟨"0"⟩
    (fun _ => CachedResponse.payload [.Accepted])
    (by decide) (Or.inl (by decide)) (fun _ => rfl)).2 4

/-- C10: the loop bodies of the route-layer `setVariables` and `getVariables`
endpoints never reassign or shorten the list tested by the loop condition,
so with exactly one discovered limit attribute and a non-empty item list the
very same first-`L`-items subset is dispatched on every iteration and the
endpoint never returns a confirmation: for every fuel bound the run is still
inside the loop, having sent `fuel` identical subsets. -/
theorem c10_route_loops_diverge {α : Type} (data : List α)
    (a : VariableAttribute) (conf : Nat → IMessageConfirmation α)
    (hne : data ≠ []) :
    ∀ fuel : Nat,
      apiSetVariables fuel [a] data conf
        = (List.replicate fuel (jsSliceZero (jsNumber a.value) data),
           .outOfFuel) ∧
      apiGetVariables fuel [a] data conf
        = (List.replicate fuel (jsSliceZero (jsNumber a.value) data),
           .outOfFuel) := by
  intro fuel
  have hlen : 0 < data.length := List.length_pos.mpr hne
  constructor
  · have hEB : apiSetVariables fuel [a] data conf
        = setVariablesLoop conf (jsNumber a.value) fuel 0 data ⟨true, none⟩ := rfl
    rw [hEB]
    exact setVariablesLoop_stuck conf _ fuel 0 data _ hlen
  · have hEB : apiGetVariables fuel [a] data conf
        = getVariablesLoop conf (jsNumber a.value) fuel 0 data ⟨true, none⟩ := rfl
    rw [hEB]
    exact getVariablesLoop_stuck conf _ fuel 0 data _ hlen

/-- Witness for C10: three items, limit `"2"`: after 3 units of fuel both
endpoints have sent the subset `[1, 2]` three times and are still looping. -/
theorem c10_route_loops_diverge_witness :
    apiSetVariables 3 [⟨"2"⟩] [1, 2, 3]
        (fun _ => (⟨true, some []⟩ : IMessageConfirmation Nat))
      = (List.replicate 3 (jsSliceZero (jsNumber (⟨"2"⟩ : VariableAttribute).value)
          [1, 2, 3]), .outOfFuel) :=
  (c10_route_loops_diverge [1, 2, 3] ⟨"2"⟩
    (fun _ => (⟨true, some []⟩ : IMessageConfirmation Nat)) (by decide) 3).1
